import Mathlib

/-!
Verification of the Spikenail GraphQL schema compiler
(src/lib/Spikenail.js) against its natural-language specification.

The development shallowly embeds the compiler: JavaScript objects become
association lists with insertion-order / overwrite-in-place semantics,
GraphQL type values become an inductive `GType`, resolver closures become
markers paired with explicit semantic functions, and code paths that throw
a TypeError become `Except Unit`.
-/

set_option autoImplicit false

namespace Spikenail

/-! ## JavaScript object semantics

A JS object is modelled as an association list ordered by key insertion.
Assignment overwrites the value in place (keeping the key's position);
`delete` removes the binding. -/

/-- Assignment obj[k] = v on a JS object: overwrite in place, else append. -/
def jsInsert {α : Type} : List (String × α) → String → α → List (String × α)
  | [], k, v => [(k, v)]
  | (k', v') :: rest, k, v =>
      if k' = k then (k, v) :: rest else (k', v') :: jsInsert rest k v

/-- Property access obj[k] on a JS object (None plays undefined). -/
def jsLookup {α : Type} : List (String × α) → String → Option α
  | [], _ => none
  | (k', v') :: rest, k => if k' = k then some v' else jsLookup rest k

/-- The delete obj[k] operation on a JS object. -/
def jsDelete {α : Type} : List (String × α) → String → List (String × α)
  | [], _ => []
  | (k', v') :: rest, k =>
      if k' = k then jsDelete rest k else (k', v') :: jsDelete rest k

/-- Key list (Object.keys) of a JS object. -/
def jsKeys {α : Type} (l : List (String × α)) : List String :=
  l.map Prod.fst

/-- Decidable equality on Except, so witnesses can evaluate compiler runs
by decide. -/
instance exceptDecidableEq {ε α : Type} [DecidableEq ε] [DecidableEq α] :
    DecidableEq (Except ε α) := fun x y =>
  match x, y with
  | Except.ok a, Except.ok b =>
      if h : a = b then Decidable.isTrue (congrArg Except.ok h)
      else Decidable.isFalse (fun hc => h (Except.ok.inj hc))
  | Except.error a, Except.error b =>
      if h : a = b then Decidable.isTrue (congrArg Except.error h)
      else Decidable.isFalse (fun hc => h (Except.error.inj hc))
  | Except.ok _, Except.error _ => Decidable.isFalse (fun hc => Except.noConfusion hc)
  | Except.error _, Except.ok _ => Decidable.isFalse (fun hc => Except.noConfusion hc)

/-- Truthiness of an optional string value: absent and empty are falsy. -/
def strTruthy : Option String → Bool
  | none => false
  | some s => !s.isEmpty

/-- The lodash capitalize function: first character upper-cased, all
remaining characters lower-cased. -/
def capitalize (s : String) : String :=
  match s.data with
  | [] => ""
  | c :: cs => String.mk (c.toUpper :: cs.map Char.toLower)

/-! ## Data model: model descriptors (compiler input) -/

/-- The value stored in a property descriptor's type slot
(the string 'id', the String/Boolean/Number constructors, the string
'Float', Object, Array, or anything else). -/
inductive PropKind where
  | pid
  | pstring
  | pboolean
  | pnumber
  | pfloat
  | pobject
  | parray
  | punknown
  deriving DecidableEq, Repr

/-- One property descriptor of a model schema. -/
structure Property where
  kind : PropKind
  relation : Option String
  ref : Option String
  foreignKeyFor : Option String
  deriving DecidableEq, Repr

/-- A model schema: name, ordered property map, and the set of property
names that carry a custom resolver function. -/
structure ModelSchema where
  name : String
  properties : List (String × Property)
  resolvers : List String
  deriving DecidableEq, Repr

/-- A registered model: its schema plus the isViewer flag.  The model
contract methods (getGraphqlListArgs, resolveOne, ...) are external
collaborators and appear below only as markers. -/
structure Model where
  schema : ModelSchema
  isViewer : Bool
  deriving DecidableEq, Repr

/-- The model.getName() accessor (the registry keys models by this name). -/
def Model.getName (m : Model) : String := m.schema.name

/-- Lookup this.models[name] (the map built by loadModels, keyed by
getName); None plays undefined. -/
def lookupModel (models : List Model) (name : String) : Option Model :=
  models.find? (fun m => m.getName = name)

/-! ## Data model: compiled GraphQL artifacts (compiler output) -/

/-- Argument sets obtained from a model's external contract. -/
inductive GArgs where
  | listArgs (model : String)
  | itemArgs (model : String)
  deriving DecidableEq, Repr

/-- Resolver closures attached to query-side fields, as markers recording
which external collaborator the closure delegates to. -/
inductive Resolver where
  | globalId (typeName : String) (fetchProp : Option String)
  | custom (prop : String)
  | hasMany (refModel : String) (prop : String)
  | resolveAll (model : String)
  | resolveItem (model : String)
  | resolveViewer (model : String)
  | node
  | viewerRoot
  deriving DecidableEq, Repr

/-- Compiled GraphQL type values.  Model object types are referenced by
name (mirroring the lazy placeholder indirection of the source), the
generated Edge and Connection object types carry their computed names. -/
inductive GType where
  | gstring
  | gboolean
  | gint
  | gfloat
  | gid
  | gjson
  | nonNull (t : GType)
  | glist (t : GType)
  | modelRef (name : String)
  | undefinedType
  | edgeObj (name : String) (node : GType)
  | connectionObj (name : String) (edge : GType)
  | pageInfo
  | mutationError
  | nodeInterface
  | viewerRef
  deriving DecidableEq, Repr

/-- A compiled field descriptor: type, optional argument set, optional
resolver. -/
structure GField where
  type : GType
  args : Option GArgs
  resolve : Option Resolver
  deriving DecidableEq, Repr

/-- The graphql getNullableType helper: strips a top-level NonNull. -/
def getNullableType : GType → GType
  | GType.nonNull t => t
  | t => t

/-- The graphql-relay globalIdField helper: a non-null ID field whose
resolver encodes (typeName, local id) into an opaque global id. -/
def globalIdField (typeName : String) (fetchProp : Option String) : GField :=
  { type := GType.nonNull GType.gid, args := none,
    resolve := some (Resolver.globalId typeName fetchProp) }

/-- The modelTypes[ref] lookup: the placeholder object type when the name
is registered, undefined otherwise. -/
def typesLookup (types : List String) (ref : Option String) : GType :=
  match ref with
  | some r => if types.contains r then GType.modelRef r else GType.undefinedType
  | none => GType.undefinedType

/-! ## Field Compiler -/

/-- Spikenail.fieldToGraphqlType: dispatch on the property descriptor's
type slot. -/
def fieldToGraphqlType (prop : String) (field : Property) (schema : ModelSchema) : GField :=
  match field.kind with
  | PropKind.pid =>
      if strTruthy field.foreignKeyFor then
        globalIdField (field.foreignKeyFor.getD "") (some prop)
      else if schema.name = "viewer" then
        globalIdField "user" none
      else
        globalIdField schema.name none
  | PropKind.pstring => { type := GType.gstring, args := none, resolve := none }
  | PropKind.pboolean => { type := GType.gboolean, args := none, resolve := none }
  | PropKind.pnumber => { type := GType.gint, args := none, resolve := none }
  | PropKind.pfloat => { type := GType.gfloat, args := none, resolve := none }
  | PropKind.pobject => { type := GType.gjson, args := none, resolve := none }
  | PropKind.parray => { type := GType.gjson, args := none, resolve := none }
  | PropKind.punknown => { type := GType.gstring, args := none, resolve := none }

/-! ## Relation Compiler: schemaToGraphqlFields

A property with a truthy relation that is not hasMany is skipped; a
hasMany property produces an inline Edge/Connection pair named
schema.name ++ underscore ++ property name, and eagerly reads
this.models[field.ref].getGraphqlListArgs() which throws a TypeError
(here: Except.error) when the referenced model does not exist. -/

/-- Loop body of Spikenail.schemaToGraphqlFields over the property list. -/
def schemaToGraphqlFieldsGo (models : List Model) (schema : ModelSchema)
    (types : List String) :
    List (String × Property) → List (String × GField) →
    Except Unit (List (String × GField))
  | [], fields => Except.ok fields
  | (prop, field) :: rest, fields =>
    if strTruthy field.relation then
      if field.relation = some "hasMany" then
        let nodeType := typesLookup types field.ref
        let edge := GType.edgeObj (schema.name ++ "_" ++ prop ++ "Edge") nodeType
        match field.ref.bind (lookupModel models) with
        | none => Except.error ()
        | some refModel =>
          let fld : GField :=
            { type := GType.connectionObj (schema.name ++ "_" ++ prop ++ "Connection") edge,
              args := some (GArgs.listArgs refModel.getName),
              resolve := some (Resolver.hasMany refModel.getName prop) }
          schemaToGraphqlFieldsGo models schema types rest (jsInsert fields prop fld)
      else
        schemaToGraphqlFieldsGo models schema types rest fields
    else
      let base := fieldToGraphqlType prop field schema
      let base :=
        if schema.resolvers.contains prop then
          { base with resolve := some (Resolver.custom prop) }
        else base
      schemaToGraphqlFieldsGo models schema types rest (jsInsert fields prop base)

/-- Spikenail.schemaToGraphqlFields. -/
def schemaToGraphqlFields (models : List Model) (schema : ModelSchema)
    (types : List String) : Except Unit (List (String × GField)) :=
  schemaToGraphqlFieldsGo models schema types schema.properties []

/-- Loop body of Spikenail.schemaToMutationFields: relations are skipped,
every other property gets the nullable form of its query-field type. -/
def schemaToMutationFieldsGo (schema : ModelSchema) :
    List (String × Property) → List (String × GField) → List (String × GField)
  | [], fields => fields
  | (prop, field) :: rest, fields =>
    if strTruthy field.relation then
      schemaToMutationFieldsGo schema rest fields
    else
      let f := fieldToGraphqlType prop field schema
      schemaToMutationFieldsGo schema rest
        (jsInsert fields prop { f with type := getNullableType f.type })

/-- Spikenail.schemaToMutationFields. -/
def schemaToMutationFields (schema : ModelSchema) : List (String × GField) :=
  schemaToMutationFieldsGo schema schema.properties []

/-! ## Connection Builder: wrapTypeIntoConnection -/

/-- Spikenail.wrapTypeIntoConnection: wrap a model object type into a
relay connection field.  Reads this.models[type.name].getGraphqlListArgs()
which throws when no such model is registered. -/
def wrapTypeIntoConnection (models : List Model) (typeName parentName : String) :
    Except Unit GField :=
  let edge := GType.edgeObj (parentName ++ "_" ++ typeName ++ "Edge")
    (GType.modelRef typeName)
  match lookupModel models typeName with
  | none => Except.error ()
  | some _ =>
    Except.ok
      { type := GType.connectionObj (parentName ++ "_" ++ typeName ++ "Connection") edge,
        args := some (GArgs.listArgs typeName),
        resolve := some (Resolver.resolveAll typeName) }

/-! ## Mutation Builder -/

/-- Resolver closures attached to mutation output fields. -/
inductive OutResolver where
  | errorsRes
  | successRes (modelName : String)
  | removedIdRes
  | viewerRes
  deriving DecidableEq, Repr

/-- A mutation output field descriptor. -/
structure OutField where
  type : GType
  resolve : Option OutResolver
  deriving DecidableEq, Repr

/-- The config object handed to mutationWithClientMutationId: the payload
type name, input fields, output fields, and the name of the per-model
mutate handler dispatched to. -/
structure MutationConfig where
  name : String
  inputFields : List (String × GField)
  outputFields : List (String × OutField)
  mutateHandler : String
  deriving DecidableEq, Repr

/-- Spikenail.buildCRUDMutation: returns the Mutation root field name and
the mutation config built for one (action, model) pair. -/
def buildCRUDMutation (action : String) (model : Model) (types : List String)
    (hasViewer : Bool) : String × MutationConfig :=
  let mutationName := action ++ capitalize model.getName
  let mutationFields := schemaToMutationFields model.schema
  let mutationFields :=
    if action = "create" then jsDelete mutationFields "id" else mutationFields
  let successResolver : Option OutResolver :=
    if action = "create" || action = "update" then
      some (OutResolver.successRes model.getName)
    else none
  let outputFields : List (String × OutField) :=
    jsInsert
      (jsInsert [] "errors"
        { type := GType.glist GType.mutationError,
          resolve := some OutResolver.errorsRes })
      model.getName
      { type := typesLookup types (some model.getName), resolve := successResolver }
  let outputFields :=
    if hasViewer then
      jsInsert outputFields "viewer"
        { type := GType.viewerRef, resolve := some OutResolver.viewerRes }
    else outputFields
  let outputFields :=
    if action = "remove" then
      jsDelete
        (jsInsert outputFields "removedId"
          { type := GType.gstring, resolve := some OutResolver.removedIdRes })
        model.getName
    else outputFields
  (mutationName,
   { name := capitalize mutationName,
     inputFields := mutationFields,
     outputFields := outputFields,
     mutateHandler := "mutateAndGetPayload" ++ capitalize action })

/-! ## Runtime semantics of the mutation output resolvers -/

/-- The result object returned by a mutate handler (absent id is None). -/
structure EntityResult where
  id : Option String
  deriving DecidableEq, Repr

/-- An entry of the errors list returned by a mutate handler. -/
structure FieldError where
  path : String
  message : String
  deriving DecidableEq, Repr

/-- The payload value a mutate handler returns, destructured by the
output-field resolvers. -/
structure MutationHandlerPayload where
  result : Option EntityResult
  errors : Option (List FieldError)
  deriving DecidableEq, Repr

/-- JS truthiness of a result id (undefined and empty string are falsy). -/
def idTruthy : Option String → Bool
  | none => false
  | some s => !s.isEmpty

/-- Outcome of the create/update entity output field. -/
inductive ResolvedEntity where
  | nullValue
  | refetched (modelName : String) (id : String)
  deriving DecidableEq, Repr

/-- Semantics of the successResolver closure: null unless the payload
carries a result with a truthy id, otherwise a model.resolveOne re-fetch
by that id. -/
def runSuccessResolver (modelName : String) (p : MutationHandlerPayload) :
    ResolvedEntity :=
  match p.result with
  | none => ResolvedEntity.nullValue
  | some r =>
      if idTruthy r.id then
        ResolvedEntity.refetched modelName (r.id.getD "")
      else ResolvedEntity.nullValue

/-- Semantics of the errors output-field resolver: the errors list when it
is present and non-empty, otherwise null (None). -/
def runErrorsResolver (p : MutationHandlerPayload) : Option (List FieldError) :=
  match p.errors with
  | some es => if es.length != 0 then some es else none
  | none => none

/-- Semantics of the removedId resolver: reads result.id, throwing a
TypeError when the payload has no result object. -/
def runRemovedIdResolver (p : MutationHandlerPayload) :
    Except Unit (Option String) :=
  match p.result with
  | none => Except.error ()
  | some r => Except.ok r.id

/-! ## Schema Assembler: createGraphqlSchema -/

/-- The compiled schema, with the lazily-referenced field maps unfolded:
root query fields, the viewer root's fields, each model type's fields and
the root mutation fields. -/
structure CompiledSchema where
  queryFields : List (String × GField)
  viewerFields : List (String × GField)
  modelFields : List (String × List (String × GField))
  mutationFields : List (String × MutationConfig)
  deriving DecidableEq, Repr

/-- The fill loop of createGraphqlSchema: for each model in registration
order, fill its placeholder's fields, attach the all-pluralized connection
field to the viewer root and the get-field to the root query. -/
def fillLoop (plural : String → String) (models : List Model) (types : List String) :
    List Model → List (String × List (String × GField)) →
    List (String × GField) → List (String × GField) →
    Except Unit (List (String × List (String × GField)) ×
      List (String × GField) × List (String × GField))
  | [], mf, vf, qf => Except.ok (mf, vf, qf)
  | m :: rest, mf, vf, qf =>
    match schemaToGraphqlFields models m.schema types with
    | Except.error e => Except.error e
    | Except.ok flds =>
      match wrapTypeIntoConnection models m.getName "viewer" with
      | Except.error e => Except.error e
      | Except.ok connField =>
        fillLoop plural models types rest
          (jsInsert mf m.getName flds)
          (jsInsert vf ("all" ++ capitalize (plural m.getName)) connField)
          (jsInsert qf ("get" ++ capitalize m.getName)
            { type := GType.modelRef m.getName,
              args := some (GArgs.itemArgs m.getName),
              resolve := some (Resolver.resolveItem m.getName) })

/-- The mutation loop of createGraphqlSchema: Object.assign of the three
CRUD mutations of every model, in registration order. -/
def mutationLoop (types : List String) (hasViewer : Bool) :
    List Model → List (String × MutationConfig) → List (String × MutationConfig)
  | [], acc => acc
  | m :: rest, acc =>
    let c1 := buildCRUDMutation "create" m types hasViewer
    let c2 := buildCRUDMutation "update" m types hasViewer
    let c3 := buildCRUDMutation "remove" m types hasViewer
    mutationLoop types hasViewer rest
      (jsInsert (jsInsert (jsInsert acc c1.1 c1.2) c2.1 c2.2) c3.1 c3.2)

/-- The viewer-model determination loop of createGraphqlSchema: the
assignment inside the for loop never breaks, so the last flagged model in
registration order wins. -/
def determineViewerModel (models : List Model) : Option Model :=
  models.foldl (fun acc m => if m.isViewer then some m else acc) none

/-- The initial viewer root fields: the id global-id field is always
present; the user field is added only when a viewer model was found. -/
def viewerFieldsInit (models : List Model) (types : List String) :
    List (String × GField) :=
  let viewerFields0 : List (String × GField) := [("id", globalIdField "user" none)]
  match determineViewerModel models with
  | some vm =>
      jsInsert viewerFields0 "user"
        { type := typesLookup types (some "user"), args := none,
          resolve := some (Resolver.resolveViewer vm.getName) }
  | none => viewerFields0

/-- The viewer field attached to the root query. -/
def viewerRootField : GField :=
  { type := GType.viewerRef, args := none, resolve := some Resolver.viewerRoot }

/-- The relay node field of the root query. -/
def nodeQueryField : GField :=
  { type := GType.nodeInterface, args := none, resolve := some Resolver.node }

/-- Spikenail.createGraphqlSchema: placeholder creation, viewer-model
determination, viewer root fields, the fill loop, the mutation loop and
final assembly.  The plural argument embeds the external pluralize
library. -/
def createGraphqlSchema (plural : String → String) (models : List Model) :
    Except Unit CompiledSchema :=
  let types := models.map Model.getName
  match fillLoop plural models types models [] (viewerFieldsInit models types)
      [("node", nodeQueryField)] with
  | Except.error e => Except.error e
  | Except.ok (mf, vf, qf) =>
    let hasViewerObj := !vf.isEmpty
    Except.ok
      { queryFields :=
          if hasViewerObj then jsInsert qf "viewer" viewerRootField else qf,
        viewerFields := vf,
        modelFields := mf,
        mutationFields := mutationLoop types hasViewerObj models [] }

/-! ## Lemmas about the JS object operations -/

theorem jsLookup_jsInsert_self {α : Type} (l : List (String × α)) (k : String) (v : α) :
    jsLookup (jsInsert l k v) k = some v := by
  induction l with
  | nil => simp [jsInsert, jsLookup]
  | cons hd t ih =>
      obtain ⟨k', v'⟩ := hd
      by_cases hk : k' = k
      · subst hk; simp [jsInsert, jsLookup]
      · simp [jsInsert, jsLookup, hk, ih]

theorem jsLookup_jsInsert_ne {α : Type} (l : List (String × α)) (k k' : String) (v : α)
    (h : k' ≠ k) : jsLookup (jsInsert l k' v) k = jsLookup l k := by
  induction l with
  | nil => simp [jsInsert, jsLookup, h]
  | cons hd t ih =>
      obtain ⟨k'', v''⟩ := hd
      by_cases hk : k'' = k'
      · subst hk; simp [jsInsert, jsLookup, h]
      · by_cases hk2 : k'' = k
        · subst hk2; simp [jsInsert, jsLookup, hk]
        · simp [jsInsert, jsLookup, hk, hk2, ih]

theorem jsLookup_jsInsert_isSome {α : Type} (l : List (String × α)) (k k' : String)
    (v : α) (h : (jsLookup l k).isSome = true) :
    (jsLookup (jsInsert l k' v) k).isSome = true := by
  by_cases hk : k' = k
  · subst hk; rw [jsLookup_jsInsert_self]; rfl
  · rw [jsLookup_jsInsert_ne l k k' v hk]; exact h

theorem jsLookup_jsInsert_cases {α : Type} (l : List (String × α)) (k k' : String)
    (v c : α) (h : jsLookup (jsInsert l k' v) k = some c) :
    (k = k' ∧ c = v) ∨ jsLookup l k = some c := by
  by_cases hk : k' = k
  · subst hk
    rw [jsLookup_jsInsert_self] at h
    exact Or.inl ⟨rfl, (Option.some.injEq _ _ ▸ h).symm⟩
  · rw [jsLookup_jsInsert_ne l k k' v hk] at h
    exact Or.inr h

theorem jsLookup_jsDelete_self {α : Type} (l : List (String × α)) (k : String) :
    jsLookup (jsDelete l k) k = none := by
  induction l with
  | nil => simp [jsDelete, jsLookup]
  | cons hd t ih =>
      obtain ⟨k', v'⟩ := hd
      by_cases hk : k' = k
      · subst hk; simp [jsDelete, jsLookup, ih]
      · simp [jsDelete, jsLookup, hk, ih]

theorem jsLookup_jsDelete_ne {α : Type} (l : List (String × α)) (k k' : String)
    (h : k' ≠ k) : jsLookup (jsDelete l k') k = jsLookup l k := by
  induction l with
  | nil => simp [jsDelete, jsLookup]
  | cons hd t ih =>
      obtain ⟨k'', v''⟩ := hd
      by_cases hk : k'' = k'
      · subst hk; simp [jsDelete, jsLookup, h, ih]
      · simp [jsDelete, jsLookup, hk, ih]

theorem jsLookup_nil_ne_some {α : Type} (k : String) (c : α)
    (h : jsLookup ([] : List (String × α)) k = some c) : False := by
  simp [jsLookup] at h

/-! ## String lemmas for the generated-name arithmetic -/

theorem string_append_left_cancel {a b c : String} (h : a ++ b = a ++ c) : b = c := by
  apply String.ext
  have h2 := congrArg String.data h
  rw [String.data_append, String.data_append] at h2
  exact List.append_cancel_left h2

theorem string_append_right_cancel {a b c : String} (h : a ++ c = b ++ c) : a = b := by
  apply String.ext
  have h2 := congrArg String.data h
  rw [String.data_append, String.data_append] at h2
  exact List.append_cancel_right h2

theorem all_append_ne_id (c : String) : "all" ++ c ≠ "id" := by
  intro h
  have h2 := congrArg String.data h
  rw [String.data_append] at h2
  simp at h2

theorem all_append_ne_user (c : String) : "all" ++ c ≠ "user" := by
  intro h
  have h2 := congrArg String.data h
  rw [String.data_append] at h2
  simp at h2

theorem action_append_inj (a1 a2 n1 n2 : String)
    (ha1 : a1 ∈ ["create", "update", "remove"])
    (ha2 : a2 ∈ ["create", "update", "remove"])
    (h : a1 ++ n1 = a2 ++ n2) : a1 = a2 ∧ n1 = n2 := by
  have h2 := congrArg String.data h
  rw [String.data_append, String.data_append] at h2
  have hlen : a1.data.length = a2.data.length := by
    simp only [List.mem_cons, List.mem_singleton] at ha1 ha2
    rcases ha1 with h1 | h1 | h1 | h1 <;> rcases ha2 with hh | hh | hh | hh <;>
      first
        | exact absurd h1 (by simp)
        | exact absurd hh (by simp)
        | (subst h1; subst hh; rfl)
  obtain ⟨hl, hr⟩ := List.append_inj h2 hlen
  exact ⟨String.ext hl, String.ext hr⟩

theorem string_ne_empty_isEmpty {s : String} (h : s ≠ "") : s.isEmpty = false := by
  by_cases hb : s.isEmpty = true
  · exact absurd ((String.isEmpty_iff s).mp hb) h
  · exact Bool.not_eq_true _ ▸ hb

/-! ## Lemmas about schemaToGraphqlFields -/

theorem strTruthy_hasMany : strTruthy (some "hasMany") = true := by decide

theorem sgfGo_preserve (models : List Model) (schema : ModelSchema) (types : List String)
    (props : List (String × Property)) (k : String) :
    ∀ (fields out : List (String × GField)),
      k ∉ props.map Prod.fst →
      schemaToGraphqlFieldsGo models schema types props fields = Except.ok out →
      jsLookup out k = jsLookup fields k := by
  induction props with
  | nil =>
      intro fields out _ hgo
      simp [schemaToGraphqlFieldsGo] at hgo
      rw [hgo]
  | cons hd rest ih =>
      intro fields out hk hgo
      obtain ⟨prop, field⟩ := hd
      simp only [List.map_cons, List.mem_cons, not_or] at hk
      obtain ⟨hk1, hk2⟩ := hk
      by_cases h1 : strTruthy field.relation = true
      · by_cases h2 : field.relation = some "hasMany"
        · cases hr : field.ref.bind (lookupModel models) with
          | none => simp [schemaToGraphqlFieldsGo, h2, hr, strTruthy_hasMany] at hgo
          | some rm =>
              simp only [schemaToGraphqlFieldsGo, h2, hr, strTruthy_hasMany,
                if_true] at hgo
              rw [ih _ _ hk2 hgo, jsLookup_jsInsert_ne _ _ _ _ (Ne.symm hk1)]
        · simp only [schemaToGraphqlFieldsGo, h1, if_true, if_neg h2] at hgo
          exact ih _ _ hk2 hgo
      · simp only [schemaToGraphqlFieldsGo, h1, if_false, Bool.false_eq_true] at hgo
        rw [ih _ _ hk2 hgo, jsLookup_jsInsert_ne _ _ _ _ (Ne.symm hk1)]

theorem sgfGo_hasMany_lookup (models : List Model) (schema : ModelSchema)
    (types : List String) (prop : String) (f : Property) (r : String) (rm : Model)
    (href : f.ref = some r) (hfound : lookupModel models r = some rm)
    (hrel : f.relation = some "hasMany") :
    ∀ (props : List (String × Property)) (fields out : List (String × GField)),
      (props.map Prod.fst).Nodup →
      (prop, f) ∈ props →
      schemaToGraphqlFieldsGo models schema types props fields = Except.ok out →
      jsLookup out prop = some
        { type := GType.connectionObj (schema.name ++ "_" ++ prop ++ "Connection")
            (GType.edgeObj (schema.name ++ "_" ++ prop ++ "Edge")
              (typesLookup types (some r))),
          args := some (GArgs.listArgs rm.getName),
          resolve := some (Resolver.hasMany rm.getName prop) } := by
  intro props
  induction props with
  | nil => intro fields out _ hmem _; simp at hmem
  | cons hd rest ih =>
      intro fields out hnd hmem hgo
      obtain ⟨p, g⟩ := hd
      rcases List.mem_cons.mp hmem with heq | hmem'
      · injection heq with hp hg
        subst hp; subst hg
        have hbind : f.ref.bind (lookupModel models) = some rm := by
          rw [href]; exact hfound
        simp only [schemaToGraphqlFieldsGo, hrel, hbind, strTruthy_hasMany,
          if_true] at hgo
        have hnotin : prop ∉ rest.map Prod.fst := by
          simpa using (List.nodup_cons.mp hnd).1
        rw [sgfGo_preserve models schema types rest prop _ _ hnotin hgo,
          jsLookup_jsInsert_self, href]
      · have hnd' := (List.nodup_cons.mp hnd).2
        by_cases h1 : strTruthy g.relation = true
        · by_cases h2 : g.relation = some "hasMany"
          · cases hr2 : g.ref.bind (lookupModel models) with
            | none => simp [schemaToGraphqlFieldsGo, h2, hr2, strTruthy_hasMany] at hgo
            | some rm2 =>
                simp only [schemaToGraphqlFieldsGo, h2, hr2, strTruthy_hasMany,
                  if_true] at hgo
                exact ih _ _ hnd' hmem' hgo
          · simp only [schemaToGraphqlFieldsGo, h1, if_true, if_neg h2] at hgo
            exact ih _ _ hnd' hmem' hgo
        · simp only [schemaToGraphqlFieldsGo, h1, if_false, Bool.false_eq_true] at hgo
          exact ih _ _ hnd' hmem' hgo

theorem sgfGo_nonrel_lookup (models : List Model) (schema : ModelSchema)
    (types : List String) (prop : String) (f : Property)
    (hrel : strTruthy f.relation = false) :
    ∀ (props : List (String × Property)) (fields out : List (String × GField)),
      (props.map Prod.fst).Nodup →
      (prop, f) ∈ props →
      schemaToGraphqlFieldsGo models schema types props fields = Except.ok out →
      (jsLookup out prop).map GField.type =
        some (fieldToGraphqlType prop f schema).type := by
  intro props
  induction props with
  | nil => intro fields out _ hmem _; simp at hmem
  | cons hd rest ih =>
      intro fields out hnd hmem hgo
      obtain ⟨p, g⟩ := hd
      rcases List.mem_cons.mp hmem with heq | hmem'
      · injection heq with hp hg
        subst hp; subst hg
        simp only [schemaToGraphqlFieldsGo, hrel, if_false, Bool.false_eq_true] at hgo
        have hnotin : prop ∉ rest.map Prod.fst := by
          simpa using (List.nodup_cons.mp hnd).1
        rw [sgfGo_preserve models schema types rest prop _ _ hnotin hgo,
          jsLookup_jsInsert_self]
        cases hres : schema.resolvers.contains prop <;> simp [hres]
      · have hnd' := (List.nodup_cons.mp hnd).2
        by_cases h1 : strTruthy g.relation = true
        · by_cases h2 : g.relation = some "hasMany"
          · cases hr2 : g.ref.bind (lookupModel models) with
            | none => simp [schemaToGraphqlFieldsGo, h2, hr2, strTruthy_hasMany] at hgo
            | some rm2 =>
                simp only [schemaToGraphqlFieldsGo, h2, hr2, strTruthy_hasMany,
                  if_true] at hgo
                exact ih _ _ hnd' hmem' hgo
          · simp only [schemaToGraphqlFieldsGo, h1, if_true, if_neg h2] at hgo
            exact ih _ _ hnd' hmem' hgo
        · simp only [schemaToGraphqlFieldsGo, h1, if_false, Bool.false_eq_true] at hgo
          exact ih _ _ hnd' hmem' hgo

theorem sgfGo_skip_lookup (models : List Model) (schema : ModelSchema)
    (types : List String) (prop : String) (f : Property)
    (h1 : strTruthy f.relation = true) (h2 : f.relation ≠ some "hasMany") :
    ∀ (props : List (String × Property)) (fields out : List (String × GField)),
      (props.map Prod.fst).Nodup →
      (prop, f) ∈ props →
      schemaToGraphqlFieldsGo models schema types props fields = Except.ok out →
      jsLookup out prop = jsLookup fields prop := by
  intro props
  induction props with
  | nil => intro fields out _ hmem _; simp at hmem
  | cons hd rest ih =>
      intro fields out hnd hmem hgo
      obtain ⟨p, g⟩ := hd
      rcases List.mem_cons.mp hmem with heq | hmem'
      · injection heq with hp hg
        subst hp; subst hg
        simp only [schemaToGraphqlFieldsGo, h1, if_true, if_neg h2] at hgo
        have hnotin : prop ∉ rest.map Prod.fst := by
          simpa using (List.nodup_cons.mp hnd).1
        exact sgfGo_preserve models schema types rest prop _ _ hnotin hgo
      · have hnd' := (List.nodup_cons.mp hnd).2
        have hpne : p ≠ prop := by
          intro hcontra
          exact (List.nodup_cons.mp hnd).1
            (hcontra ▸ (List.mem_map.mpr ⟨(prop, f), hmem', rfl⟩))
        by_cases hg1 : strTruthy g.relation = true
        · by_cases hg2 : g.relation = some "hasMany"
          · cases hr2 : g.ref.bind (lookupModel models) with
            | none => simp [schemaToGraphqlFieldsGo, hg2, hr2, strTruthy_hasMany] at hgo
            | some rm2 =>
                simp only [schemaToGraphqlFieldsGo, hg2, hr2, strTruthy_hasMany,
                  if_true] at hgo
                rw [ih _ _ hnd' hmem' hgo, jsLookup_jsInsert_ne _ _ _ _ hpne]
          · simp only [schemaToGraphqlFieldsGo, hg1, if_true, if_neg hg2] at hgo
            exact ih _ _ hnd' hmem' hgo
        · simp only [schemaToGraphqlFieldsGo, hg1, if_false, Bool.false_eq_true] at hgo
          rw [ih _ _ hnd' hmem' hgo, jsLookup_jsInsert_ne _ _ _ _ hpne]

theorem sgfGo_error (models : List Model) (schema : ModelSchema)
    (types : List String) (prop : String) (f : Property)
    (hrel : f.relation = some "hasMany")
    (hbad : f.ref.bind (lookupModel models) = none) :
    ∀ (props : List (String × Property)) (fields : List (String × GField)),
      (prop, f) ∈ props →
      schemaToGraphqlFieldsGo models schema types props fields = Except.error () := by
  intro props
  induction props with
  | nil => intro fields hmem; simp at hmem
  | cons hd rest ih =>
      intro fields hmem
      obtain ⟨p, g⟩ := hd
      rcases List.mem_cons.mp hmem with heq | hmem'
      · injection heq with hp hg
        subst hp; subst hg
        simp [schemaToGraphqlFieldsGo, hrel, hbad, strTruthy_hasMany]
      · by_cases hg1 : strTruthy g.relation = true
        · by_cases hg2 : g.relation = some "hasMany"
          · cases hr2 : g.ref.bind (lookupModel models) with
            | none => simp [schemaToGraphqlFieldsGo, hg2, hr2, strTruthy_hasMany]
            | some rm2 =>
                simp only [schemaToGraphqlFieldsGo, hg2, hr2, strTruthy_hasMany,
                  if_true]
                exact ih _ hmem'
          · simp only [schemaToGraphqlFieldsGo, hg1, if_true, if_neg hg2]
            exact ih _ hmem'
        · simp only [schemaToGraphqlFieldsGo, hg1, if_false, Bool.false_eq_true]
          exact ih _ hmem'

theorem sgfGo_ok_noHasMany (models : List Model) (schema : ModelSchema)
    (types : List String) :
    ∀ (props : List (String × Property)) (fields : List (String × GField)),
      props.all (fun q => !(q.2.relation == some "hasMany")) = true →
      (schemaToGraphqlFieldsGo models schema types props fields).isOk = true := by
  intro props
  induction props with
  | nil => intro fields _; simp [schemaToGraphqlFieldsGo, Except.isOk, Except.toBool]
  | cons hd rest ih =>
      intro fields hall
      obtain ⟨p, g⟩ := hd
      simp only [List.all_cons, Bool.and_eq_true, Bool.not_eq_true'] at hall
      have hne : g.relation ≠ some "hasMany" := by
        intro hcontra
        rw [hcontra] at hall
        simp at hall
      by_cases hg1 : strTruthy g.relation = true
      · simp only [schemaToGraphqlFieldsGo, hg1, if_true, if_neg hne]
        exact ih _ hall.2
      · simp only [schemaToGraphqlFieldsGo, hg1, if_false, Bool.false_eq_true]
        exact ih _ hall.2

/-! ## Lemmas about schemaToMutationFields -/

theorem smfGo_preserve (schema : ModelSchema) (props : List (String × Property))
    (k : String) :
    ∀ (fields : List (String × GField)),
      k ∉ props.map Prod.fst →
      jsLookup (schemaToMutationFieldsGo schema props fields) k = jsLookup fields k := by
  induction props with
  | nil => intro fields _; simp [schemaToMutationFieldsGo]
  | cons hd rest ih =>
      intro fields hk
      obtain ⟨prop, field⟩ := hd
      simp only [List.map_cons, List.mem_cons, not_or] at hk
      obtain ⟨hk1, hk2⟩ := hk
      by_cases h1 : strTruthy field.relation = true
      · simp only [schemaToMutationFieldsGo, h1, if_true]
        exact ih _ hk2
      · simp only [schemaToMutationFieldsGo, h1, if_false, Bool.false_eq_true]
        rw [ih _ hk2, jsLookup_jsInsert_ne _ _ _ _ (Ne.symm hk1)]

theorem smfGo_nonrel_lookup (schema : ModelSchema) (prop : String) (f : Property)
    (hrel : strTruthy f.relation = false) :
    ∀ (props : List (String × Property)) (fields : List (String × GField)),
      (props.map Prod.fst).Nodup →
      (prop, f) ∈ props →
      jsLookup (schemaToMutationFieldsGo schema props fields) prop =
        some { fieldToGraphqlType prop f schema with
                 type := getNullableType (fieldToGraphqlType prop f schema).type } := by
  intro props
  induction props with
  | nil => intro fields _ hmem; simp at hmem
  | cons hd rest ih =>
      intro fields hnd hmem
      obtain ⟨p, g⟩ := hd
      rcases List.mem_cons.mp hmem with heq | hmem'
      · injection heq with hp hg
        subst hp; subst hg
        simp only [schemaToMutationFieldsGo, hrel, if_false, Bool.false_eq_true]
        have hnotin : prop ∉ rest.map Prod.fst := by
          simpa using (List.nodup_cons.mp hnd).1
        rw [smfGo_preserve schema rest prop _ hnotin, jsLookup_jsInsert_self]
      · have hnd' := (List.nodup_cons.mp hnd).2
        by_cases hg1 : strTruthy g.relation = true
        · simp only [schemaToMutationFieldsGo, hg1, if_true]
          exact ih _ hnd' hmem'
        · simp only [schemaToMutationFieldsGo, hg1, if_false, Bool.false_eq_true]
          exact ih _ hnd' hmem'

theorem smfGo_skip_lookup (schema : ModelSchema) (prop : String) (f : Property)
    (hrel : strTruthy f.relation = true) :
    ∀ (props : List (String × Property)) (fields : List (String × GField)),
      (props.map Prod.fst).Nodup →
      (prop, f) ∈ props →
      jsLookup (schemaToMutationFieldsGo schema props fields) prop =
        jsLookup fields prop := by
  intro props
  induction props with
  | nil => intro fields _ hmem; simp at hmem
  | cons hd rest ih =>
      intro fields hnd hmem
      obtain ⟨p, g⟩ := hd
      rcases List.mem_cons.mp hmem with heq | hmem'
      · injection heq with hp hg
        subst hp; subst hg
        simp only [schemaToMutationFieldsGo, hrel, if_true]
        have hnotin : prop ∉ rest.map Prod.fst := by
          simpa using (List.nodup_cons.mp hnd).1
        exact smfGo_preserve schema rest prop _ hnotin
      · have hnd' := (List.nodup_cons.mp hnd).2
        have hpne : p ≠ prop := by
          intro hcontra
          exact (List.nodup_cons.mp hnd).1
            (hcontra ▸ (List.mem_map.mpr ⟨(prop, f), hmem', rfl⟩))
        by_cases hg1 : strTruthy g.relation = true
        · simp only [schemaToMutationFieldsGo, hg1, if_true]
          exact ih _ hnd' hmem'
        · simp only [schemaToMutationFieldsGo, hg1, if_false, Bool.false_eq_true]
          rw [ih _ hnd' hmem', jsLookup_jsInsert_ne _ _ _ _ hpne]

theorem smfGo_domain (schema : ModelSchema) (props : List (String × Property))
    (k : String) :
    ∀ (fields : List (String × GField)),
      (jsLookup (schemaToMutationFieldsGo schema props fields) k).isSome = true →
      (∃ f, (k, f) ∈ props ∧ strTruthy f.relation = false) ∨
        (jsLookup fields k).isSome = true := by
  induction props with
  | nil =>
      intro fields h
      right
      simpa [schemaToMutationFieldsGo] using h
  | cons hd rest ih =>
      intro fields h
      obtain ⟨p, g⟩ := hd
      by_cases hg1 : strTruthy g.relation = true
      · simp only [schemaToMutationFieldsGo, hg1, if_true] at h
        rcases ih _ h with ⟨f, hmem, hf⟩ | hfld
        · exact Or.inl ⟨f, List.mem_cons_of_mem _ hmem, hf⟩
        · exact Or.inr hfld
      · simp only [schemaToMutationFieldsGo, hg1, if_false, Bool.false_eq_true] at h
        rcases ih _ h with ⟨f, hmem, hf⟩ | hfld
        · exact Or.inl ⟨f, List.mem_cons_of_mem _ hmem, hf⟩
        · by_cases hk : k = p
          · subst hk
            exact Or.inl ⟨g, List.mem_cons_self _ _,
              Bool.not_eq_true _ ▸ hg1⟩
          · rw [jsLookup_jsInsert_ne _ _ _ _ (Ne.symm hk)] at hfld
            exact Or.inr hfld

/-! ## Lemmas about the fill loop, the mutation loop and the viewer scan -/

theorem fillLoop_vf_preserve (plural : String → String) (models : List Model)
    (types : List String) (k : String) (hk : ∀ c, "all" ++ c ≠ k) :
    ∀ (rest : List Model) (mf : List (String × List (String × GField)))
      (vf qf : List (String × GField))
      (mfo : List (String × List (String × GField))) (vfo qfo : List (String × GField)),
      fillLoop plural models types rest mf vf qf = Except.ok (mfo, vfo, qfo) →
      jsLookup vfo k = jsLookup vf k := by
  intro rest
  induction rest with
  | nil =>
      intro mf vf qf mfo vfo qfo h
      simp only [fillLoop, Except.ok.injEq, Prod.mk.injEq] at h
      rw [h.2.1]
  | cons m rest ih =>
      intro mf vf qf mfo vfo qfo h
      cases hs : schemaToGraphqlFields models m.schema types with
      | error e => simp [fillLoop, hs] at h
      | ok flds =>
          cases hw : wrapTypeIntoConnection models m.getName "viewer" with
          | error e => simp [fillLoop, hs, hw] at h
          | ok conn =>
              simp only [fillLoop, hs, hw] at h
              rw [ih _ _ _ _ _ _ h,
                jsLookup_jsInsert_ne _ _ _ _ (hk (capitalize (plural m.getName)))]

theorem fillLoop_error (plural : String → String) (models : List Model)
    (types : List String) (m : Model) (prop : String) (f : Property)
    (hmem : (prop, f) ∈ m.schema.properties) (hrel : f.relation = some "hasMany")
    (hbad : f.ref.bind (lookupModel models) = none) :
    ∀ (rest : List Model) (mf : List (String × List (String × GField)))
      (vf qf : List (String × GField)),
      m ∈ rest →
      fillLoop plural models types rest mf vf qf = Except.error () := by
  intro rest
  induction rest with
  | nil => intro mf vf qf hm; simp at hm
  | cons m' rest ih =>
      intro mf vf qf hm
      rcases List.mem_cons.mp hm with heq | hm'
      · subst heq
        have hs := sgfGo_error models m.schema types prop f hrel hbad
          m.schema.properties [] hmem
        simp [fillLoop, schemaToGraphqlFields, hs]
      · cases hs : schemaToGraphqlFields models m'.schema types with
        | error e => cases e; simp [fillLoop, hs]
        | ok flds =>
            cases hw : wrapTypeIntoConnection models m'.getName "viewer" with
            | error e => cases e; simp [fillLoop, hs, hw]
            | ok conn =>
                simp only [fillLoop, hs, hw]
                exact ih _ _ _ hm'

theorem jsLookup_some_not_isEmpty {α : Type} (l : List (String × α)) (k : String)
    (c : α) (h : jsLookup l k = some c) : (!l.isEmpty) = true := by
  cases l with
  | nil => simp [jsLookup] at h
  | cons hd t => rfl

theorem jsInsert_inv {α : Type} (P : String → α → Prop) (l : List (String × α))
    (k' : String) (v : α)
    (hl : ∀ k c, jsLookup l k = some c → P k c) (hv : P k' v) :
    ∀ k c, jsLookup (jsInsert l k' v) k = some c → P k c := by
  intro k c h
  rcases jsLookup_jsInsert_cases l k k' v c h with ⟨hkk, hcv⟩ | hold
  · subst hkk; subst hcv; exact hv
  · exact hl _ _ hold

theorem buildCRUDMutation_fst (action : String) (m : Model) (types : List String)
    (hv : Bool) :
    (buildCRUDMutation action m types hv).1 = action ++ capitalize m.getName := rfl

theorem buildCRUDMutation_name (action : String) (m : Model) (types : List String)
    (hv : Bool) :
    (buildCRUDMutation action m types hv).2.name =
      capitalize ((buildCRUDMutation action m types hv).1) := rfl

theorem mutationLoop_isSome_preserve (types : List String) (hv : Bool) (k : String) :
    ∀ (ms : List Model) (acc : List (String × MutationConfig)),
      (jsLookup acc k).isSome = true →
      (jsLookup (mutationLoop types hv ms acc) k).isSome = true := by
  intro ms
  induction ms with
  | nil => intro acc h; simpa [mutationLoop] using h
  | cons m rest ih =>
      intro acc h
      simp only [mutationLoop]
      exact ih _ (jsLookup_jsInsert_isSome _ _ _ _
        (jsLookup_jsInsert_isSome _ _ _ _ (jsLookup_jsInsert_isSome _ _ _ _ h)))

theorem mutationLoop_mem (types : List String) (hv : Bool) (a : String)
    (ha : a ∈ ["create", "update", "remove"]) :
    ∀ (ms : List Model) (acc : List (String × MutationConfig)) (m : Model),
      m ∈ ms →
      (jsLookup (mutationLoop types hv ms acc) (a ++ capitalize m.getName)).isSome
        = true := by
  intro ms
  induction ms with
  | nil => intro acc m hm; simp at hm
  | cons m' rest ih =>
      intro acc m hm
      rcases List.mem_cons.mp hm with heq | hm'
      · subst heq
        simp only [mutationLoop, buildCRUDMutation_fst]
        apply mutationLoop_isSome_preserve
        simp only [List.mem_cons, List.mem_singleton] at ha
        rcases ha with rfl | rfl | rfl | hfalse
        · exact jsLookup_jsInsert_isSome _ _ _ _ (jsLookup_jsInsert_isSome _ _ _ _
            (by rw [jsLookup_jsInsert_self]; rfl))
        · exact jsLookup_jsInsert_isSome _ _ _ _
            (by rw [jsLookup_jsInsert_self]; rfl)
        · rw [jsLookup_jsInsert_self]; rfl
        · simp at hfalse
      · simp only [mutationLoop]
        exact ih _ m hm'

theorem mutationLoop_name_inv (types : List String) (hv : Bool) :
    ∀ (ms : List Model) (acc : List (String × MutationConfig)),
      (∀ k cfg, jsLookup acc k = some cfg → cfg.name = capitalize k) →
      ∀ k cfg, jsLookup (mutationLoop types hv ms acc) k = some cfg →
        cfg.name = capitalize k := by
  intro ms
  induction ms with
  | nil => intro acc hacc k cfg h; exact hacc k cfg h
  | cons m rest ih =>
      intro acc hacc k cfg h
      simp only [mutationLoop] at h
      refine ih _ ?_ k cfg h
      apply jsInsert_inv
      apply jsInsert_inv
      apply jsInsert_inv
      · exact hacc
      · exact buildCRUDMutation_name "create" m types hv
      · exact buildCRUDMutation_name "update" m types hv
      · exact buildCRUDMutation_name "remove" m types hv

theorem viewerFoldl_isSome (l : List Model) :
    ∀ (acc : Option Model),
      (l.foldl (fun a m => if m.isViewer then some m else a) acc).isSome =
        (acc.isSome || l.any Model.isViewer) := by
  induction l with
  | nil => intro acc; simp
  | cons m rest ih =>
      intro acc
      simp only [List.foldl_cons, List.any_cons]
      rw [ih]
      cases hm : m.isViewer <;> simp [hm]

theorem determineViewerModel_isSome (models : List Model) :
    (determineViewerModel models).isSome = models.any Model.isViewer := by
  rw [determineViewerModel, viewerFoldl_isSome]
  rfl

theorem noViewerFoldl (l : List Model) (hl : l.all (fun m => !m.isViewer) = true) :
    ∀ (acc : Option Model),
      l.foldl (fun a m => if m.isViewer then some m else a) acc = acc := by
  induction l with
  | nil => intro acc; rfl
  | cons m rest ih =>
      intro acc
      simp only [List.all_cons, Bool.and_eq_true, Bool.not_eq_true'] at hl
      simp only [List.foldl_cons, hl.1, if_false, Bool.false_eq_true]
      exact ih hl.2 acc

theorem determineViewerModel_last (ms1 ms2 : List Model) (vm : Model)
    (hvm : vm.isViewer = true) (hms2 : ms2.all (fun m => !m.isViewer) = true) :
    determineViewerModel (ms1 ++ vm :: ms2) = some vm := by
  rw [determineViewerModel, List.foldl_append, List.foldl_cons, hvm]
  simp only [if_true]
  exact noViewerFoldl ms2 hms2 (some vm)

theorem createGraphqlSchema_ok_elim (plural : String → String) (models : List Model)
    (s : CompiledSchema) (hok : createGraphqlSchema plural models = Except.ok s) :
    ∃ mf vf qf,
      fillLoop plural models (models.map Model.getName) models []
        (viewerFieldsInit models (models.map Model.getName))
        [("node", nodeQueryField)] = Except.ok (mf, vf, qf) ∧
      s.queryFields =
        (if (!vf.isEmpty) = true then jsInsert qf "viewer" viewerRootField else qf) ∧
      s.viewerFields = vf ∧
      s.modelFields = mf ∧
      s.mutationFields = mutationLoop (models.map Model.getName) (!vf.isEmpty) models [] := by
  simp only [createGraphqlSchema] at hok
  cases hfill : fillLoop plural models (models.map Model.getName) models []
      (viewerFieldsInit models (models.map Model.getName))
      [("node", nodeQueryField)] with
  | error e => rw [hfill] at hok; cases hok
  | ok triple =>
      obtain ⟨mf, vf, qf⟩ := triple
      rw [hfill] at hok
      injection hok with hs
      exact ⟨mf, vf, qf, rfl, by rw [← hs], by rw [← hs], by rw [← hs], by rw [← hs]⟩

/-! ## Concrete fixtures used by counterexamples and witnesses -/

/-- A plain identifier property. -/
def idProp : Property :=
  { kind := PropKind.pid, relation := none, ref := none, foreignKeyFor := none }

/-- A plain string property. -/
def titleProp : Property :=
  { kind := PropKind.pstring, relation := none, ref := none, foreignKeyFor := none }

/-- A hasMany relation property referencing the comment model. -/
def commentsProp : Property :=
  { kind := PropKind.punknown, relation := some "hasMany", ref := some "comment",
    foreignKeyFor := none }

/-- A hasOne relation property whose ref names a model that does not exist. -/
def ghostHasOneProp : Property :=
  { kind := PropKind.punknown, relation := some "hasOne", ref := some "ghost",
    foreignKeyFor := none }

/-- A hasMany relation property whose ref names a model that does not exist. -/
def ghostHasManyProp : Property :=
  { kind := PropKind.punknown, relation := some "hasMany", ref := some "ghost",
    foreignKeyFor := none }

/-- A post model with an id, a title and a hasMany comments relation. -/
def postModel : Model :=
  { schema := { name := "post",
                properties := [("id", idProp), ("title", titleProp),
                  ("comments", commentsProp)],
                resolvers := [] },
    isViewer := false }

/-- A comment model with an id and a text property. -/
def commentModel : Model :=
  { schema := { name := "comment",
                properties := [("id", idProp), ("text", titleProp)],
                resolvers := [] },
    isViewer := false }

/-- A two-model registry with no viewer model. -/
def demoModels : List Model := [postModel, commentModel]

/-- The placeholder type names of the demo registry. -/
def demoTypes : List String := demoModels.map Model.getName

/-- A concrete instantiation of the external pluralize collaborator. -/
def demoPlural (s : String) : String := s ++ "s"

/-- A model with a hasOne relation whose ref is unresolved. -/
def hasOneModel : Model :=
  { schema := { name := "thing",
                properties := [("id", idProp), ("owner", ghostHasOneProp)],
                resolvers := [] },
    isViewer := false }

/-- A model with a hasMany relation whose ref is unresolved. -/
def hasManyBadModel : Model :=
  { schema := { name := "thing",
                properties := [("items", ghostHasManyProp)],
                resolvers := [] },
    isViewer := false }

/-- A viewer-flagged model registered first. -/
def aliceModel : Model :=
  { schema := { name := "alice", properties := [("id", idProp)], resolvers := [] },
    isViewer := true }

/-- A viewer-flagged model registered second. -/
def bobModel : Model :=
  { schema := { name := "bob", properties := [("id", idProp)], resolvers := [] },
    isViewer := true }

/-- A sample field error record. -/
def demoErr : FieldError := { path := "title", message := "too long" }

/-- The empty compiled schema, used as a getD fallback in witnesses. -/
def emptySchema : CompiledSchema :=
  { queryFields := [], viewerFields := [], modelFields := [], mutationFields := [] }

/-- A fallback field value for getD in witnesses. -/
def dummyField : GField := { type := GType.gstring, args := none, resolve := none }

/-! ## Claim C1 -/

/-- C1, counterexample: the claim says the Edge/Connection names of a
hasMany relation property concatenate the owner context with the element
type's name, but the code concatenates the owner schema name with the
property name: for the post model's comments property (element type
comment) the generated names are post_commentsConnection and
post_commentsEdge, not post_commentConnection / post_commentEdge. -/
theorem C1_counterexample :
    ((schemaToGraphqlFields demoModels postModel.schema demoTypes).toOption.bind
      (fun flds => (jsLookup flds "comments").map GField.type)) =
      some (GType.connectionObj "post_commentsConnection"
        (GType.edgeObj "post_commentsEdge" (GType.modelRef "comment"))) ∧
    "post_commentsConnection" ≠ "post" ++ "_" ++ "comment" ++ "Connection" ∧
    "post_commentsEdge" ≠ "post" ++ "_" ++ "comment" ++ "Edge" := by
  refine ⟨rfl, by decide, by decide⟩

/-- Names built as owner, underscore, component, suffix are injective in
the component for a fixed owner and suffix. -/
theorem owner_name_inj (owner p p' sfx : String) (hpp : p ≠ p') :
    owner ++ "_" ++ p ++ sfx ≠ owner ++ "_" ++ p' ++ sfx := by
  intro h
  exact hpp (string_append_left_cancel (string_append_right_cancel h))

/-- C1, amended: for a root list-all field (wrapTypeIntoConnection) the
Edge and Connection names are ownerContext, underscore, element type name,
suffix — as claimed; but for a hasMany relation property they are owner
schema name, underscore, property name, suffix, with the property name in
place of the element type's name.  Distinct properties of one owner still
give distinct names. -/
theorem C1_amended_naming (models : List Model) (schema : ModelSchema)
    (types : List String) (prop : String) (f : Property) (r : String) (rm : Model)
    (flds : List (String × GField)) (n parent : String) (fld : GField)
    (owner p p' : String)
    (hnd : (schema.properties.map Prod.fst).Nodup)
    (hmem : (prop, f) ∈ schema.properties)
    (hrel : f.relation = some "hasMany")
    (href : f.ref = some r)
    (hfound : lookupModel models r = some rm)
    (hok : schemaToGraphqlFields models schema types = Except.ok flds)
    (hwrap : wrapTypeIntoConnection models n parent = Except.ok fld)
    (hpp : p ≠ p') :
    (jsLookup flds prop).map GField.type =
      some (GType.connectionObj (schema.name ++ "_" ++ prop ++ "Connection")
        (GType.edgeObj (schema.name ++ "_" ++ prop ++ "Edge")
          (typesLookup types (some r)))) ∧
    fld.type = GType.connectionObj (parent ++ "_" ++ n ++ "Connection")
      (GType.edgeObj (parent ++ "_" ++ n ++ "Edge") (GType.modelRef n)) ∧
    owner ++ "_" ++ p ++ "Connection" ≠ owner ++ "_" ++ p' ++ "Connection" ∧
    owner ++ "_" ++ p ++ "Edge" ≠ owner ++ "_" ++ p' ++ "Edge" := by
  refine ⟨?_, ?_, owner_name_inj owner p p' "Connection" hpp,
    owner_name_inj owner p p' "Edge" hpp⟩
  · rw [schemaToGraphqlFields] at hok
    rw [sgfGo_hasMany_lookup models schema types prop f r rm href hfound hrel
      schema.properties [] flds hnd hmem hok]
    rfl
  · unfold wrapTypeIntoConnection at hwrap
    cases hlk : lookupModel models n with
    | none => rw [hlk] at hwrap; cases hwrap
    | some m2 =>
        rw [hlk] at hwrap
        injection hwrap with hfld
        rw [← hfld]

/-- C1, witness for the amended theorem at the demo registry. -/
theorem C1_amended_naming_witness :
    ((postModel.schema.properties.map Prod.fst).Nodup ∧
      ("comments", commentsProp) ∈ postModel.schema.properties ∧
      commentsProp.relation = some "hasMany" ∧
      commentsProp.ref = some "comment" ∧
      lookupModel demoModels "comment" = some commentModel ∧
      ("comments" : String) ≠ "other") ∧
    ((jsLookup ((schemaToGraphqlFields demoModels postModel.schema demoTypes).toOption.getD [])
        "comments").map GField.type =
      some (GType.connectionObj (postModel.schema.name ++ "_" ++ "comments" ++ "Connection")
        (GType.edgeObj (postModel.schema.name ++ "_" ++ "comments" ++ "Edge")
          (typesLookup demoTypes (some "comment")))) ∧
      ((wrapTypeIntoConnection demoModels "post" "viewer").toOption.getD dummyField).type =
        GType.connectionObj ("viewer" ++ "_" ++ "post" ++ "Connection")
          (GType.edgeObj ("viewer" ++ "_" ++ "post" ++ "Edge") (GType.modelRef "post")) ∧
      "post" ++ "_" ++ "comments" ++ "Connection" ≠ "post" ++ "_" ++ "other" ++ "Connection" ∧
      "post" ++ "_" ++ "comments" ++ "Edge" ≠ "post" ++ "_" ++ "other" ++ "Edge") := by
  refine ⟨⟨by decide, by decide, rfl, rfl, by decide, by decide⟩, ?_⟩
  exact C1_amended_naming demoModels postModel.schema demoTypes "comments" commentsProp
    "comment" commentModel
    ((schemaToGraphqlFields demoModels postModel.schema demoTypes).toOption.getD [])
    "post" "viewer" ((wrapTypeIntoConnection demoModels "post" "viewer").toOption.getD dummyField)
    "post" "comments" "other"
    (by decide) (by decide) rfl rfl (by decide) rfl rfl (by decide)

/-! ## Claim C2 -/

/-- C2, counterexample: the claim says the root Mutation field is named
capitalized(action + capitalized(modelName)), e.g. CreatePost; the code
keys the field by action + capitalize(modelName) with a lower-case action
prefix: for the post model the field is createPost, and neither CreatePost
nor Createpost (the lodash capitalization of the claimed formula) exists. -/
theorem C2_counterexample :
    ((createGraphqlSchema demoPlural demoModels).toOption.map
      (fun s => ((jsLookup s.mutationFields "createPost").isSome,
                 (jsLookup s.mutationFields "CreatePost").isSome,
                 (jsLookup s.mutationFields "Createpost").isSome))) =
      some (true, false, false) := by decide

/-- C2, amended: for every model and action the root Mutation field is
named action ++ capitalize(modelName) (lower-case action prefix, e.g.
createPost), while capitalize is applied only to the mutation payload type
name (capitalize mutationName, e.g. Createpost); fields of models with
distinct capitalized names never collide. -/
theorem C2_amended_mutation_names (plural : String → String) (models : List Model)
    (s : CompiledSchema) (m : Model) (a : String) (types : List String) (hv : Bool)
    (a1 a2 n1 n2 : String)
    (hok : createGraphqlSchema plural models = Except.ok s)
    (hm : m ∈ models)
    (ha : a ∈ ["create", "update", "remove"])
    (ha1 : a1 ∈ ["create", "update", "remove"])
    (ha2 : a2 ∈ ["create", "update", "remove"])
    (hc : capitalize n1 ≠ capitalize n2) :
    (buildCRUDMutation a m types hv).1 = a ++ capitalize m.getName ∧
    (buildCRUDMutation a m types hv).2.name = capitalize (a ++ capitalize m.getName) ∧
    (jsLookup s.mutationFields (a ++ capitalize m.getName)).map MutationConfig.name =
      some (capitalize (a ++ capitalize m.getName)) ∧
    a1 ++ capitalize n1 ≠ a2 ++ capitalize n2 := by
  obtain ⟨mf, vf, qf, hfill, hq, hvf, hmf, hmut⟩ :=
    createGraphqlSchema_ok_elim plural models s hok
  refine ⟨rfl, rfl, ?_, ?_⟩
  · rw [hmut]
    have hisSome := mutationLoop_mem (models.map Model.getName) (!vf.isEmpty)
      a ha models [] m hm
    obtain ⟨cfg, hcfg⟩ := Option.isSome_iff_exists.mp hisSome
    have hname := mutationLoop_name_inv (models.map Model.getName) (!vf.isEmpty)
      models [] (by intro k c h; simp [jsLookup] at h) _ _ hcfg
    rw [hcfg, Option.map_some', hname]
  · intro h
    exact hc (action_append_inj a1 a2 _ _ ha1 ha2 h).2

/-- C2, witness for the amended theorem at the demo registry. -/
theorem C2_amended_mutation_names_witness :
    (createGraphqlSchema demoPlural demoModels =
        Except.ok ((createGraphqlSchema demoPlural demoModels).toOption.getD emptySchema) ∧
      postModel ∈ demoModels ∧
      ("update" : String) ∈ ["create", "update", "remove"] ∧
      ("create" : String) ∈ ["create", "update", "remove"] ∧
      capitalize "post" ≠ capitalize "comment") ∧
    ((buildCRUDMutation "update" postModel demoTypes true).1 =
        "update" ++ capitalize postModel.getName ∧
      (buildCRUDMutation "update" postModel demoTypes true).2.name =
        capitalize ("update" ++ capitalize postModel.getName) ∧
      (jsLookup ((createGraphqlSchema demoPlural demoModels).toOption.getD
          emptySchema).mutationFields
        ("update" ++ capitalize postModel.getName)).map MutationConfig.name =
        some (capitalize ("update" ++ capitalize postModel.getName)) ∧
      "create" ++ capitalize "post" ≠ "create" ++ capitalize "comment") := by
  refine ⟨⟨rfl, by decide, by decide, by decide, by decide⟩, ?_⟩
  exact C2_amended_mutation_names demoPlural demoModels
    ((createGraphqlSchema demoPlural demoModels).toOption.getD emptySchema)
    postModel "update" demoTypes true "create" "create" "post" "comment"
    rfl (by decide) (by decide) (by decide) (by decide) (by decide)

/-! ## Claim C3 -/

/-- C3, counterexample: the claim says the viewer root is exposed only
when some model is flagged as viewer; in the demo registry no model is a
viewer, yet the compiled Query contains the viewer root, because the
viewer field map always starts with the id field and the emptiness guard
therefore always passes. -/
theorem C3_counterexample :
    demoModels.any Model.isViewer = false ∧
    ((createGraphqlSchema demoPlural demoModels).toOption.map
      (fun s => (jsLookup s.queryFields "viewer").isSome)) = some true := by decide

/-- C3, amended: the viewer root is always exposed in the compiled Query
(its field set always contains the id global-id field, so the non-empty
guard always passes); only the user field on the viewer root is present
exactly when some model is flagged as viewer. -/
theorem C3_amended_viewer_always (plural : String → String) (models : List Model)
    (s : CompiledSchema)
    (hok : createGraphqlSchema plural models = Except.ok s) :
    jsLookup s.queryFields "viewer" = some viewerRootField ∧
    jsLookup s.viewerFields "id" = some (globalIdField "user" none) ∧
    (jsLookup s.viewerFields "user").isSome = models.any Model.isViewer := by
  obtain ⟨mf, vf, qf, hfill, hq, hvf, hmf, hmut⟩ :=
    createGraphqlSchema_ok_elim plural models s hok
  have hid : jsLookup vf "id" = some (globalIdField "user" none) := by
    rw [fillLoop_vf_preserve plural models (models.map Model.getName) "id"
      all_append_ne_id models _ _ _ _ _ _ hfill]
    unfold viewerFieldsInit
    cases determineViewerModel models with
    | none => rfl
    | some vm => simp [jsInsert, jsLookup]
  have hvfne : (!vf.isEmpty) = true := jsLookup_some_not_isEmpty _ _ _ hid
  refine ⟨?_, by rw [hvf]; exact hid, ?_⟩
  · rw [hq]
    simp only [hvfne, if_true]
    exact jsLookup_jsInsert_self _ _ _
  · rw [hvf]
    rw [fillLoop_vf_preserve plural models (models.map Model.getName) "user"
      all_append_ne_user models _ _ _ _ _ _ hfill]
    rw [← determineViewerModel_isSome models]
    unfold viewerFieldsInit
    cases determineViewerModel models with
    | none => rfl
    | some vm => simp [jsInsert, jsLookup]

/-- C3, witness for the amended theorem at a registry with a viewer model. -/
theorem C3_amended_viewer_always_witness :
    createGraphqlSchema demoPlural [commentModel, bobModel] =
      Except.ok ((createGraphqlSchema demoPlural [commentModel, bobModel]).toOption.getD
        emptySchema) ∧
    (jsLookup ((createGraphqlSchema demoPlural [commentModel, bobModel]).toOption.getD
        emptySchema).queryFields "viewer" = some viewerRootField ∧
      jsLookup ((createGraphqlSchema demoPlural [commentModel, bobModel]).toOption.getD
        emptySchema).viewerFields "id" = some (globalIdField "user" none) ∧
      (jsLookup ((createGraphqlSchema demoPlural [commentModel, bobModel]).toOption.getD
        emptySchema).viewerFields "user").isSome =
        [commentModel, bobModel].any Model.isViewer) := by
  refine ⟨by decide, ?_⟩
  exact C3_amended_viewer_always demoPlural [commentModel, bobModel]
    ((createGraphqlSchema demoPlural [commentModel, bobModel]).toOption.getD emptySchema)
    (by decide)

/-! ## Claim C4 -/

/-- C4, counterexample: the claim says any relation property with an
unresolved ref makes compilation fail; a hasOne relation with an
unresolved ref (model thing, property owner, ref ghost) compiles
successfully, because only the hasMany branch dereferences the registry. -/
theorem C4_counterexample :
    lookupModel [hasOneModel] "ghost" = none ∧
    strTruthy ghostHasOneProp.relation = true ∧
    (createGraphqlSchema demoPlural [hasOneModel]).isOk = true := by decide

/-- C4, amended: compilation fails (with the TypeError raised by reading
getGraphqlListArgs of undefined) when some model has a hasMany relation
property whose ref does not resolve to a registered model; hasOne
relations with unresolved refs are silently skipped instead. -/
theorem C4_amended_hasMany_failure (plural : String → String) (models : List Model)
    (m : Model) (prop : String) (f : Property)
    (hm : m ∈ models)
    (hmem : (prop, f) ∈ m.schema.properties)
    (hrel : f.relation = some "hasMany")
    (hbad : f.ref.bind (lookupModel models) = none) :
    createGraphqlSchema plural models = Except.error () := by
  have h := fillLoop_error plural models (models.map Model.getName) m prop f
    hmem hrel hbad models []
    (viewerFieldsInit models (models.map Model.getName))
    [("node", nodeQueryField)] hm
  simp only [createGraphqlSchema, h]

/-- C4, witness for the amended theorem at the bad hasMany registry. -/
theorem C4_amended_hasMany_failure_witness :
    (hasManyBadModel ∈ [hasManyBadModel] ∧
      ("items", ghostHasManyProp) ∈ hasManyBadModel.schema.properties ∧
      ghostHasManyProp.relation = some "hasMany" ∧
      ghostHasManyProp.ref.bind (lookupModel [hasManyBadModel]) = none) ∧
    createGraphqlSchema demoPlural [hasManyBadModel] = Except.error () := by
  refine ⟨⟨by decide, by decide, rfl, by decide⟩, ?_⟩
  exact C4_amended_hasMany_failure demoPlural [hasManyBadModel] hasManyBadModel
    "items" ghostHasManyProp (by decide) (by decide) rfl (by decide)

/-! ## Claim C5 -/

/-- C5: for create and update mutations the entity output field carries
the success resolver, which resolves to null whenever the mutate handler's
payload has no result or the result's id is absent or empty, and otherwise
resolves to the entity re-fetched by that id through model.resolveOne.
The name hypothesis excludes the payload key collision in which a model
named viewer is overwritten by the viewer echo field. -/
theorem C5_entity_field_resolution (model : Model) (types : List String) (hv : Bool)
    (e : Option (List FieldError)) (i : String)
    (hview : hv = false ∨ model.getName ≠ "viewer")
    (hi : i ≠ "") :
    jsLookup (buildCRUDMutation "create" model types hv).2.outputFields model.getName =
      some { type := typesLookup types (some model.getName),
             resolve := some (OutResolver.successRes model.getName) } ∧
    jsLookup (buildCRUDMutation "update" model types hv).2.outputFields model.getName =
      some { type := typesLookup types (some model.getName),
             resolve := some (OutResolver.successRes model.getName) } ∧
    runSuccessResolver model.getName { result := none, errors := e } =
      ResolvedEntity.nullValue ∧
    runSuccessResolver model.getName { result := some { id := none }, errors := e } =
      ResolvedEntity.nullValue ∧
    runSuccessResolver model.getName { result := some { id := some "" }, errors := e } =
      ResolvedEntity.nullValue ∧
    runSuccessResolver model.getName { result := some { id := some i }, errors := e } =
      ResolvedEntity.refetched model.getName i := by
  have hlk : ∀ (res : Option OutResolver),
      jsLookup
        (if hv then
          jsInsert
            (jsInsert (jsInsert ([] : List (String × OutField)) "errors"
              { type := GType.glist GType.mutationError,
                resolve := some OutResolver.errorsRes })
              model.getName
              { type := typesLookup types (some model.getName), resolve := res })
            "viewer" { type := GType.viewerRef, resolve := some OutResolver.viewerRes }
          else
          jsInsert (jsInsert ([] : List (String × OutField)) "errors"
            { type := GType.glist GType.mutationError,
              resolve := some OutResolver.errorsRes })
            model.getName
            { type := typesLookup types (some model.getName), resolve := res })
        model.getName =
      some { type := typesLookup types (some model.getName), resolve := res } := by
    intro res
    rcases hview with hfalse | hname
    · subst hfalse
      simp only [if_false, Bool.false_eq_true]
      exact jsLookup_jsInsert_self _ _ _
    · cases hv
      · simp only [if_false, Bool.false_eq_true]
        exact jsLookup_jsInsert_self _ _ _
      · simp only [if_true]
        rw [jsLookup_jsInsert_ne _ _ _ _ (fun hc => hname hc.symm)]
        exact jsLookup_jsInsert_self _ _ _
  refine ⟨?_, ?_, rfl, rfl, rfl, ?_⟩
  · have h := hlk (some (OutResolver.successRes model.getName))
    simpa [buildCRUDMutation] using h
  · have h := hlk (some (OutResolver.successRes model.getName))
    simpa [buildCRUDMutation] using h
  · simp [runSuccessResolver, idTruthy, string_ne_empty_isEmpty hi]

/-- C5, witness at the post model with a viewer present. -/
theorem C5_entity_field_resolution_witness :
    ((true = false ∨ postModel.getName ≠ "viewer") ∧ ("42" : String) ≠ "") ∧
    (jsLookup (buildCRUDMutation "create" postModel demoTypes true).2.outputFields
        postModel.getName =
      some { type := typesLookup demoTypes (some postModel.getName),
             resolve := some (OutResolver.successRes postModel.getName) } ∧
    jsLookup (buildCRUDMutation "update" postModel demoTypes true).2.outputFields
        postModel.getName =
      some { type := typesLookup demoTypes (some postModel.getName),
             resolve := some (OutResolver.successRes postModel.getName) } ∧
    runSuccessResolver postModel.getName { result := none, errors := some [] } =
      ResolvedEntity.nullValue ∧
    runSuccessResolver postModel.getName
        { result := some { id := none }, errors := some [] } =
      ResolvedEntity.nullValue ∧
    runSuccessResolver postModel.getName
        { result := some { id := some "" }, errors := some [] } =
      ResolvedEntity.nullValue ∧
    runSuccessResolver postModel.getName
        { result := some { id := some "42" }, errors := some [] } =
      ResolvedEntity.refetched postModel.getName "42") := by
  refine ⟨⟨by decide, by decide⟩, ?_⟩
  exact C5_entity_field_resolution postModel demoTypes true (some []) "42"
    (by decide) (by decide)

/-! ## Claim C6 -/

/-- C6: for every remove mutation (on a model whose name does not collide
with the reserved payload keys errors and removedId) the output fields
contain removedId, resolving to the id carried by the mutate handler's
result, and errors, while the entity-named output field is deleted. -/
theorem C6_remove_output_fields (model : Model) (types : List String) (hv : Bool)
    (r : EntityResult) (e : Option (List FieldError))
    (h1 : model.getName ≠ "errors") (h2 : model.getName ≠ "removedId") :
    jsLookup (buildCRUDMutation "remove" model types hv).2.outputFields "removedId" =
      some { type := GType.gstring, resolve := some OutResolver.removedIdRes } ∧
    jsLookup (buildCRUDMutation "remove" model types hv).2.outputFields "errors" =
      some { type := GType.glist GType.mutationError,
             resolve := some OutResolver.errorsRes } ∧
    jsLookup (buildCRUDMutation "remove" model types hv).2.outputFields
      model.getName = none ∧
    runRemovedIdResolver { result := some r, errors := e } = Except.ok r.id := by
  refine ⟨?_, ?_, ?_, rfl⟩
  · simp only [buildCRUDMutation]
    norm_num
    rw [jsLookup_jsDelete_ne _ _ _ h2, jsLookup_jsInsert_self]
  · simp only [buildCRUDMutation]
    norm_num
    rw [jsLookup_jsDelete_ne _ _ _ h1,
      jsLookup_jsInsert_ne _ _ _ _ (by decide : ("removedId" : String) ≠ "errors")]
    cases hv
    · simp only [if_false, Bool.false_eq_true]
      rw [jsLookup_jsInsert_ne _ _ _ _ (fun hc => h1 hc),
        jsLookup_jsInsert_self]
    · simp only [if_true]
      rw [jsLookup_jsInsert_ne _ _ _ _ (by decide : ("viewer" : String) ≠ "errors"),
        jsLookup_jsInsert_ne _ _ _ _ (fun hc => h1 hc),
        jsLookup_jsInsert_self]
  · simp only [buildCRUDMutation]
    norm_num
    rw [jsLookup_jsDelete_self]

/-- C6, witness at the post model with a viewer present. -/
theorem C6_remove_output_fields_witness :
    (postModel.getName ≠ "errors" ∧ postModel.getName ≠ "removedId") ∧
    (jsLookup (buildCRUDMutation "remove" postModel demoTypes true).2.outputFields
        "removedId" =
      some { type := GType.gstring, resolve := some OutResolver.removedIdRes } ∧
    jsLookup (buildCRUDMutation "remove" postModel demoTypes true).2.outputFields
        "errors" =
      some { type := GType.glist GType.mutationError,
             resolve := some OutResolver.errorsRes } ∧
    jsLookup (buildCRUDMutation "remove" postModel demoTypes true).2.outputFields
      postModel.getName = none ∧
    runRemovedIdResolver { result := some { id := some "9" }, errors := none } =
      Except.ok (some "9")) := by
  refine ⟨⟨by decide, by decide⟩, ?_⟩
  exact C6_remove_output_fields postModel demoTypes true { id := some "9" } none
    (by decide) (by decide)

/-! ## Claim C7 -/

/-- C7, counterexample: the claim says the errors output field resolves to
an empty list, not an absent or null value, when the handler reports no
errors; the resolver returns null (None) for an empty errors list. -/
theorem C7_counterexample :
    ((jsLookup (buildCRUDMutation "create" postModel demoTypes true).2.outputFields
        "errors").map OutField.resolve) = some (some OutResolver.errorsRes) ∧
    runErrorsResolver { result := some { id := some "1" }, errors := some [] } = none ∧
    (none : Option (List FieldError)) ≠ some [] := by decide

/-- C7, amended: every generated mutation's output fields include errors
(for models not named errors, which would collide with the payload key);
the errors resolver returns the handler's error list when it is non-empty,
and null — not an empty list — when the handler reports an empty list or
no list at all. -/
theorem C7_amended_errors_field (action : String) (model : Model) (types : List String)
    (hv : Bool) (res : Option EntityResult) (es : List FieldError)
    (hname : model.getName ≠ "errors") (hes : es ≠ []) :
    jsLookup (buildCRUDMutation action model types hv).2.outputFields "errors" =
      some { type := GType.glist GType.mutationError,
             resolve := some OutResolver.errorsRes } ∧
    runErrorsResolver { result := res, errors := some es } = some es ∧
    runErrorsResolver { result := res, errors := some [] } = none ∧
    runErrorsResolver { result := res, errors := none } = none := by
  refine ⟨?_, ?_, rfl, rfl⟩
  · have hbase : ∀ (r2 : Option OutResolver),
        jsLookup
          (if hv then
            jsInsert
              (jsInsert (jsInsert ([] : List (String × OutField)) "errors"
                { type := GType.glist GType.mutationError,
                  resolve := some OutResolver.errorsRes })
                model.getName
                { type := typesLookup types (some model.getName), resolve := r2 })
              "viewer" { type := GType.viewerRef, resolve := some OutResolver.viewerRes }
            else
            jsInsert (jsInsert ([] : List (String × OutField)) "errors"
              { type := GType.glist GType.mutationError,
                resolve := some OutResolver.errorsRes })
              model.getName
              { type := typesLookup types (some model.getName), resolve := r2 })
          "errors" =
        some { type := GType.glist GType.mutationError,
               resolve := some OutResolver.errorsRes } := by
      intro r2
      cases hv
      · simp only [if_false, Bool.false_eq_true]
        rw [jsLookup_jsInsert_ne _ _ _ _ (fun hc => hname hc),
          jsLookup_jsInsert_self]
      · simp only [if_true]
        rw [jsLookup_jsInsert_ne _ _ _ _ (by decide : ("viewer" : String) ≠ "errors"),
          jsLookup_jsInsert_ne _ _ _ _ (fun hc => hname hc),
          jsLookup_jsInsert_self]
    by_cases ha : action = "remove"
    · subst ha
      simp only [buildCRUDMutation]
      norm_num
      rw [jsLookup_jsDelete_ne _ _ _ hname,
        jsLookup_jsInsert_ne _ _ _ _ (by decide : ("removedId" : String) ≠ "errors")]
      exact hbase _
    · simp only [buildCRUDMutation, if_neg ha]
      exact hbase _
  · have hlen : (es.length != 0) = true := by
      cases es with
      | nil => exact absurd rfl hes
      | cons a t => rfl
    simp [runErrorsResolver, hlen]

/-- C7, witness at the post model for the update action. -/
theorem C7_amended_errors_field_witness :
    (postModel.getName ≠ "errors" ∧
      ([demoErr] : List FieldError) ≠ []) ∧
    (jsLookup (buildCRUDMutation "update" postModel demoTypes true).2.outputFields
        "errors" =
      some { type := GType.glist GType.mutationError,
             resolve := some OutResolver.errorsRes } ∧
    runErrorsResolver { result := none, errors := some [demoErr] } =
      some [demoErr] ∧
    runErrorsResolver { result := none, errors := some [] } = none ∧
    runErrorsResolver { result := none, errors := none } = none) := by
  refine ⟨⟨by decide, by decide⟩, ?_⟩
  exact C7_amended_errors_field "update" postModel demoTypes true none
    [demoErr] (by decide) (by decide)

/-! ## Claim C8 -/

theorem jsLookup_jsDelete_none {α : Type} (l : List (String × α)) (k k' : String)
    (h : jsLookup l k = none) : jsLookup (jsDelete l k') k = none := by
  by_cases hk : k' = k
  · subst hk; exact jsLookup_jsDelete_self l k'
  · rw [jsLookup_jsDelete_ne l k k' hk]; exact h

theorem jsLookup_jsDelete_isSome {α : Type} (l : List (String × α)) (k k' : String)
    (h : (jsLookup (jsDelete l k') k).isSome = true) :
    (jsLookup l k).isSome = true := by
  by_cases hk : k' = k
  · subst hk; rw [jsLookup_jsDelete_self] at h; cases h
  · rw [jsLookup_jsDelete_ne l k k' hk] at h; exact h

/-- The input fields of a built mutation: the scalar mutation fields, with
the id field deleted for the create action. -/
theorem buildCRUDMutation_inputFields (action : String) (model : Model)
    (types : List String) (hv : Bool) :
    (buildCRUDMutation action model types hv).2.inputFields =
      (if action = "create" then jsDelete (schemaToMutationFields model.schema) "id"
       else schemaToMutationFields model.schema) := rfl

/-- C8: for every model and action the mutation input fields are exactly
the model's non-relation properties, each given the nullable form of its
query-field type (even where the query field was non-null), and the create
action additionally removes the primary identifier field id. -/
theorem C8_mutation_input_fields (action : String) (model : Model) (types : List String)
    (hv : Bool) (models : List Model) (prop prop2 k : String) (f f2 : Property)
    (flds : List (String × GField))
    (hnd : (model.schema.properties.map Prod.fst).Nodup)
    (hmem : (prop, f) ∈ model.schema.properties)
    (hfalsy : strTruthy f.relation = false)
    (hnotid : ¬(action = "create" ∧ prop = "id"))
    (hq : schemaToGraphqlFields models model.schema types = Except.ok flds)
    (hmem2 : (prop2, f2) ∈ model.schema.properties)
    (htruthy : strTruthy f2.relation = true)
    (hk : (jsLookup (buildCRUDMutation action model types hv).2.inputFields k).isSome
      = true) :
    (jsLookup flds prop).map GField.type =
      some (fieldToGraphqlType prop f model.schema).type ∧
    (jsLookup (buildCRUDMutation action model types hv).2.inputFields prop).map
        GField.type =
      some (getNullableType (fieldToGraphqlType prop f model.schema).type) ∧
    jsLookup (buildCRUDMutation action model types hv).2.inputFields prop2 = none ∧
    jsLookup (buildCRUDMutation "create" model types hv).2.inputFields "id" = none ∧
    model.schema.properties.any
      (fun q => q.1 == k && !(strTruthy q.2.relation)) = true := by
  have hmf : jsLookup (schemaToMutationFields model.schema) prop =
      some { fieldToGraphqlType prop f model.schema with
               type := getNullableType (fieldToGraphqlType prop f model.schema).type } :=
    smfGo_nonrel_lookup model.schema prop f hfalsy model.schema.properties [] hnd hmem
  have hmf2 : jsLookup (schemaToMutationFields model.schema) prop2 = none := by
    rw [schemaToMutationFields, smfGo_skip_lookup model.schema prop2 f2 htruthy
      model.schema.properties [] hnd hmem2]
    rfl
  refine ⟨?_, ?_, ?_, ?_, ?_⟩
  · rw [schemaToGraphqlFields] at hq
    exact sgfGo_nonrel_lookup models model.schema types prop f hfalsy
      model.schema.properties [] flds hnd hmem hq
  · rw [buildCRUDMutation_inputFields]
    by_cases ha : action = "create"
    · have hpid : prop ≠ "id" := fun hc => hnotid ⟨ha, hc⟩
      simp only [ha, if_true]
      rw [jsLookup_jsDelete_ne _ _ _ (fun hc => hpid hc.symm), hmf]
      rfl
    · simp only [if_neg ha]
      rw [hmf]
      rfl
  · rw [buildCRUDMutation_inputFields]
    by_cases ha : action = "create"
    · simp only [ha, if_true]
      exact jsLookup_jsDelete_none _ _ _ hmf2
    · simp only [if_neg ha]
      exact hmf2
  · rw [buildCRUDMutation_inputFields]
    simp only [if_pos rfl]
    exact jsLookup_jsDelete_self _ _
  · rw [buildCRUDMutation_inputFields] at hk
    have hk2 : (jsLookup (schemaToMutationFields model.schema) k).isSome = true := by
      by_cases ha : action = "create"
      · rw [ha, if_pos rfl] at hk
        exact jsLookup_jsDelete_isSome _ _ _ hk
      · rwa [if_neg ha] at hk
    rcases smfGo_domain model.schema model.schema.properties k [] hk2 with
      ⟨f3, hmem3, hf3⟩ | hnil
    · refine List.any_eq_true.mpr ⟨(k, f3), hmem3, ?_⟩
      simp [hf3]
    · simp [jsLookup] at hnil

/-- C8, witness at the post model for the update action. -/
theorem C8_mutation_input_fields_witness :
    ((postModel.schema.properties.map Prod.fst).Nodup ∧
      ("title", titleProp) ∈ postModel.schema.properties ∧
      strTruthy titleProp.relation = false ∧
      ¬(("update" : String) = "create" ∧ ("title" : String) = "id") ∧
      schemaToGraphqlFields demoModels postModel.schema demoTypes =
        Except.ok ((schemaToGraphqlFields demoModels postModel.schema demoTypes).toOption.getD []) ∧
      ("comments", commentsProp) ∈ postModel.schema.properties ∧
      strTruthy commentsProp.relation = true ∧
      (jsLookup (buildCRUDMutation "update" postModel demoTypes true).2.inputFields
        "title").isSome = true) ∧
    ((jsLookup ((schemaToGraphqlFields demoModels postModel.schema demoTypes).toOption.getD [])
        "title").map GField.type =
      some (fieldToGraphqlType "title" titleProp postModel.schema).type ∧
    (jsLookup (buildCRUDMutation "update" postModel demoTypes true).2.inputFields
        "title").map GField.type =
      some (getNullableType (fieldToGraphqlType "title" titleProp postModel.schema).type) ∧
    jsLookup (buildCRUDMutation "update" postModel demoTypes true).2.inputFields
      "comments" = none ∧
    jsLookup (buildCRUDMutation "create" postModel demoTypes true).2.inputFields
      "id" = none ∧
    postModel.schema.properties.any
      (fun q => q.1 == "title" && !(strTruthy q.2.relation)) = true) := by
  refine ⟨⟨by decide, by decide, rfl, by decide, by decide, by decide, rfl, by decide⟩, ?_⟩
  exact C8_mutation_input_fields "update" postModel demoTypes true demoModels
    "title" "comments" "title" titleProp commentsProp
    ((schemaToGraphqlFields demoModels postModel.schema demoTypes).toOption.getD [])
    (by decide) (by decide) rfl (by decide) (by decide) (by decide) rfl (by decide)

/-! ## Claim C9 -/

/-- C9, counterexample: with two viewer-flagged models registered as alice
then bob, the compiled viewer user field delegates to bob, the last
flagged model, not to alice, the first, as the claim states. -/
theorem C9_counterexample :
    ([aliceModel, bobModel].map (fun m => (m.getName, m.isViewer)) =
      [("alice", true), ("bob", true)]) ∧
    ((createGraphqlSchema demoPlural [aliceModel, bobModel]).toOption.bind
      (fun s => (jsLookup s.viewerFields "user").map GField.resolve)) =
      some (some (Resolver.resolveViewer "bob")) ∧
    Resolver.resolveViewer "bob" ≠ Resolver.resolveViewer "alice" := by decide

/-- C9, amended: when several models are flagged as viewer, the compiler
uses the last flagged model in registration order (the loop keeps
overwriting the viewerModel variable), and the viewer user field
delegates to that model's resolveViewer. -/
theorem C9_amended_last_viewer (plural : String → String) (ms1 ms2 : List Model)
    (vm : Model) (s : CompiledSchema)
    (hvm : vm.isViewer = true)
    (hms2 : ms2.all (fun m => !m.isViewer) = true)
    (hok : createGraphqlSchema plural (ms1 ++ vm :: ms2) = Except.ok s) :
    (jsLookup s.viewerFields "user").map GField.resolve =
      some (some (Resolver.resolveViewer vm.getName)) := by
  obtain ⟨mf, vf, qf, hfill, hq, hvf, hmf, hmut⟩ :=
    createGraphqlSchema_ok_elim plural (ms1 ++ vm :: ms2) s hok
  rw [hvf, fillLoop_vf_preserve plural (ms1 ++ vm :: ms2)
    ((ms1 ++ vm :: ms2).map Model.getName) "user" all_append_ne_user
    (ms1 ++ vm :: ms2) _ _ _ _ _ _ hfill]
  unfold viewerFieldsInit
  rw [determineViewerModel_last ms1 ms2 vm hvm hms2]
  simp [jsInsert, jsLookup]

/-- C9, witness with alice registered before the viewer model bob. -/
theorem C9_amended_last_viewer_witness :
    (bobModel.isViewer = true ∧
      ([] : List Model).all (fun m => !m.isViewer) = true ∧
      createGraphqlSchema demoPlural ([aliceModel] ++ bobModel :: []) =
        Except.ok ((createGraphqlSchema demoPlural
          ([aliceModel] ++ bobModel :: [])).toOption.getD emptySchema)) ∧
    (jsLookup ((createGraphqlSchema demoPlural
        ([aliceModel] ++ bobModel :: [])).toOption.getD emptySchema).viewerFields
      "user").map GField.resolve =
      some (some (Resolver.resolveViewer bobModel.getName)) := by
  refine ⟨⟨rfl, rfl, by decide⟩, ?_⟩
  exact C9_amended_last_viewer demoPlural [aliceModel] [] bobModel
    ((createGraphqlSchema demoPlural
      ([aliceModel] ++ bobModel :: [])).toOption.getD emptySchema)
    rfl rfl (by decide)

/-! ## Claim C10 -/

/-- C10: a hasOne relation property produces no field at all: it is
skipped both by the object-type field compiler and by the mutation input
compiler, and (being a non-hasMany relation) it never makes compilation
fail, even when its ref is unresolved. -/
theorem C10_hasOne_skipped (models : List Model) (schema : ModelSchema)
    (types : List String) (prop : String) (f : Property)
    (flds : List (String × GField))
    (hnd : (schema.properties.map Prod.fst).Nodup)
    (hmem : (prop, f) ∈ schema.properties)
    (hrel : f.relation = some "hasOne")
    (hok : schemaToGraphqlFields models schema types = Except.ok flds)
    (hnomany : schema.properties.all (fun q => !(q.2.relation == some "hasMany"))
      = true) :
    jsLookup flds prop = none ∧
    jsLookup (schemaToMutationFields schema) prop = none ∧
    (schemaToGraphqlFields models schema types).isOk = true := by
  have h1 : strTruthy f.relation = true := by rw [hrel]; rfl
  have h2 : f.relation ≠ some "hasMany" := by rw [hrel]; decide
  refine ⟨?_, ?_, ?_⟩
  · rw [schemaToGraphqlFields] at hok
    rw [sgfGo_skip_lookup models schema types prop f h1 h2
      schema.properties [] flds hnd hmem hok]
    rfl
  · rw [schemaToMutationFields, smfGo_skip_lookup schema prop f h1
      schema.properties [] hnd hmem]
    rfl
  · rw [schemaToGraphqlFields]
    exact sgfGo_ok_noHasMany models schema types schema.properties [] hnomany

/-- C10, witness at the model with an unresolved hasOne ref. -/
theorem C10_hasOne_skipped_witness :
    ((hasOneModel.schema.properties.map Prod.fst).Nodup ∧
      ("owner", ghostHasOneProp) ∈ hasOneModel.schema.properties ∧
      ghostHasOneProp.relation = some "hasOne" ∧
      schemaToGraphqlFields [hasOneModel] hasOneModel.schema ["thing"] =
        Except.ok ((schemaToGraphqlFields [hasOneModel] hasOneModel.schema
          ["thing"]).toOption.getD []) ∧
      hasOneModel.schema.properties.all
        (fun q => !(q.2.relation == some "hasMany")) = true) ∧
    (jsLookup ((schemaToGraphqlFields [hasOneModel] hasOneModel.schema
        ["thing"]).toOption.getD []) "owner" = none ∧
    jsLookup (schemaToMutationFields hasOneModel.schema) "owner" = none ∧
    (schemaToGraphqlFields [hasOneModel] hasOneModel.schema ["thing"]).isOk = true) := by
  refine ⟨⟨by decide, by decide, rfl, by decide, by decide⟩, ?_⟩
  exact C10_hasOne_skipped [hasOneModel] hasOneModel.schema ["thing"] "owner"
    ghostHasOneProp
    ((schemaToGraphqlFields [hasOneModel] hasOneModel.schema ["thing"]).toOption.getD [])
    (by decide) (by decide) rfl (by decide) (by decide)

end Spikenail
